import Mathlib

/-!
Shallow embedding of `functions/src/index.ts` of the
CryptocurrencyPriceTrackerBackend repository: four HTTP handlers
(`getMarkets`, `getFavorites`, `toggleFavorite`, `getCoin`) in front of a
Firestore document store and the CoinGecko upstream API.

Modelling conventions:
* JavaScript `String.prototype.trim` and `toLowerCase` are embedded as
  `jsTrim` and `jsToLower` (ASCII whitespace and ASCII case, which covers
  every identifier the validators can accept).
* The regex tests `/^[a-zA-Z0-9_-]{3,128}$/`, `/^[a-z0-9-]{2,100}$/` and
  `/^[a-z]{2,10}$/` are embedded as decidable character-list predicates.
* The Firestore subcollection `users/{userId}/favorites/{coinId}` is a list
  of `FavDoc` records; `tx.set` on a document path upserts (replaces any
  document at the same path) and `tx.delete` removes the path, matching
  Firestore's keyed document semantics.
* `FieldValue.serverTimestamp()` is a monotone counter `clock` carried in
  `DbState`: each committed create stamps the current clock and bumps it,
  which models the store-assigned, monotonically increasing write time.
* A Firestore `runTransaction` is atomic and all-or-nothing, so the whole
  transaction body is one step `toggleTransaction`; a thrown / retry-exhausted
  transaction is the oracle flag `txFails` and leaves the state untouched.
* The `fetch` to the upstream API is an oracle `FetchResult`: a 2xx body,
  a non-ok status with body text, or a thrown network error.
-/

/-- Character model of the JavaScript whitespace class stripped by `trim`
(ASCII portion: space, tab, LF, VT, FF, CR). -/
def isJsWhitespace (c : Char) : Bool :=
  c.toNat == 32 || c.toNat == 9 || c.toNat == 10 || c.toNat == 11 ||
  c.toNat == 12 || c.toNat == 13

/-- JavaScript `toLowerCase` on one character (ASCII case mapping). -/
def lowerChar (c : Char) : Char :=
  if 65 ≤ c.toNat && c.toNat ≤ 90 then Char.ofNat (c.toNat + 32) else c

/-- JavaScript `s.trim()`: strip leading and trailing whitespace. -/
def jsTrim (s : String) : String :=
  ⟨((s.data.dropWhile isJsWhitespace).reverse.dropWhile isJsWhitespace).reverse⟩

/-- JavaScript `s.toLowerCase()`. -/
def jsToLower (s : String) : String :=
  ⟨s.data.map lowerChar⟩

/-- One character of the `userId` class `[a-zA-Z0-9_-]`. -/
def isUserChar (c : Char) : Bool :=
  (97 ≤ c.toNat && c.toNat ≤ 122) || (65 ≤ c.toNat && c.toNat ≤ 90) ||
  (48 ≤ c.toNat && c.toNat ≤ 57) || c.toNat == 95 || c.toNat == 45

/-- One character of the `coinId` class `[a-z0-9-]`. -/
def isCoinChar (c : Char) : Bool :=
  (97 ≤ c.toNat && c.toNat ≤ 122) || (48 ≤ c.toNat && c.toNat ≤ 57) ||
  c.toNat == 45

/-- The test `/^[a-zA-Z0-9_-]{3,128}$/.test(userId)`. -/
def validUserId (s : String) : Bool :=
  decide (3 ≤ s.data.length) && decide (s.data.length ≤ 128) &&
  s.data.all isUserChar

/-- The test `/^[a-z0-9-]{2,100}$/.test(coinId)`. -/
def validCoinId (s : String) : Bool :=
  decide (2 ≤ s.data.length) && decide (s.data.length ≤ 100) &&
  s.data.all isCoinChar

/-- The test `/^[a-z]{2,10}$/.test(currency)`. -/
def validCurrency (s : String) : Bool :=
  decide (2 ≤ s.data.length) && decide (s.data.length ≤ 10) &&
  s.data.all (fun c => 97 ≤ c.toNat && c.toNat ≤ 122)

/-- One document in the `users/{userId}/favorites/{coinId}` subcollection.
The document id is `coinId`; the stored data is `{coinId, createdAt}`. -/
structure FavDoc where
  userId : String
  coinId : String
  createdAt : Nat
deriving Repr, DecidableEq

/-- The favorites portion of the Firestore database. -/
abbrev Store := List FavDoc

/-- Whether document `d` lives at path `users/{u}/favorites/{c}`. -/
def docKeyMatches (u c : String) (d : FavDoc) : Bool :=
  d.userId == u && d.coinId == c

/-- Existence check `snap.exists` for the document at `users/{u}/favorites/{c}`. -/
def storeGetExists (s : Store) (u c : String) : Bool :=
  s.any (docKeyMatches u c)

/-- Effect of `tx.delete(favoriteRef)`: every document at the path is removed. -/
def storeDelete (s : Store) (u c : String) : Store :=
  s.filter (fun d => !(docKeyMatches u c d))

/-- Effect of `tx.set(favoriteRef, {coinId, createdAt})`: upsert at the path. -/
def storeSet (s : Store) (u c : String) (t : Nat) : Store :=
  ⟨u, c, t⟩ :: storeDelete s u c

/-- Database state: the favorites store plus the server clock used to model
`FieldValue.serverTimestamp()`. -/
structure DbState where
  store : Store
  clock : Nat
deriving Repr, DecidableEq

/-- The body of `db.runTransaction` in `toggleFavorite` (index.ts lines
181-193), executed atomically: read the favorite document; if it exists,
delete it and answer `false`; otherwise create it with the server-assigned
timestamp and answer `true`. -/
def toggleTransaction (u c : String) (st : DbState) : Bool × DbState :=
  if storeGetExists st.store u c then
    (false, { st with store := storeDelete st.store u c })
  else
    (true, { store := storeSet st.store u c st.clock, clock := st.clock + 1 })

/-- Recency order used by `orderBy("createdAt", "desc")`: `a` sorts before
`b` when `a` was created no earlier than `b`. -/
def favLater (a b : FavDoc) : Prop :=
  b.createdAt ≤ a.createdAt

instance : DecidableRel favLater :=
  fun a b => Nat.decLe b.createdAt a.createdAt

instance : IsTotal FavDoc favLater :=
  ⟨fun a b => Nat.le_total b.createdAt a.createdAt⟩

instance : IsTrans FavDoc favLater :=
  ⟨fun _ _ _ hab hbc => Nat.le_trans hbc hab⟩

/-- The query `db.collection("users").doc(u).collection("favorites")
.orderBy("createdAt", "desc").get()`: the user's documents ordered by
descending creation time. -/
def favoritesQuery (s : Store) (u : String) : List FavDoc :=
  List.insertionSort favLater (s.filter (fun d => d.userId == u))

/-- `favoritesSnap.docs.map((d) => d.id)`: the ordered document ids, which
are the coin ids. -/
def listFavorites (s : Store) (u : String) : List String :=
  (favoritesQuery s u).map (fun d => d.coinId)

/-- Payload carried in the `data` field of the response envelope. -/
inductive RespData where
  | null
  | favorited (b : Bool)
  | favorites (ids : List String)
  | markets (body : String)
  | coin (body : String)
  | upstreamError (body : String)
deriving Repr, DecidableEq

/-- The uniform response envelope `{status, message, data}` (the HTTP status
set via `res.status(...)` always equals the `status` field of the body, and
the 204 preflight reply is modelled with an empty message and null data). -/
structure Resp where
  status : Nat
  message : String
  data : RespData
deriving Repr, DecidableEq

/-- Outcome of the upstream `fetch`: an ok response with a JSON body, a
non-ok response with its status and body text, or a thrown network error. -/
inductive FetchResult where
  | success (body : String)
  | failure (status : Nat) (body : String)
  | thrown
deriving Repr, DecidableEq

/-- Request shape read by `getMarkets`: the method and the `currency` query
parameter (absent is `none`). -/
structure MarketsReq where
  method : String
  currency : Option String
deriving Repr, DecidableEq

/-- Request shape read by `getFavorites`: the method, the `userId` query
parameter and the `userId` body field (a non-string or absent field is
`none`, which the handler coalesces to `""`). -/
structure FavListReq where
  method : String
  queryUserId : Option String
  bodyUserId : Option String
deriving Repr, DecidableEq

/-- Request shape read by `toggleFavorite`: the method and the `userId` and
`coinId` body fields (a non-string or absent field is `none`). -/
structure ToggleReq where
  method : String
  userId : Option String
  coinId : Option String
deriving Repr, DecidableEq

/-- Request shape read by `getCoin`: the method and the `id` body field. -/
structure CoinReq where
  method : String
  id : Option String
deriving Repr, DecidableEq

/-- Result of a `toggleFavorite` call: the response, the database state
after the call, and whether the store was reached (a transaction was run or
attempted). -/
structure ToggleOut where
  resp : Resp
  state : DbState
  accessed : Bool
deriving Repr, DecidableEq

/-- Handler `getMarkets` (index.ts lines 15-77). `upstream` is the outcome
of the single `fetch` to the CoinGecko markets endpoint. -/
def getMarkets (req : MarketsReq) (upstream : FetchResult) : Resp :=
  if req.method == "OPTIONS" then ⟨204, "", .null⟩
  else if !(req.method == "GET") then ⟨405, "Method Not Allowed", .null⟩
  else
    let rawCurrency := match req.currency with
      | none => "usd"
      | some s => if s == "" then "usd" else s
    let currency := jsToLower rawCurrency
    if !(validCurrency currency) then ⟨400, "Invalid currency parameter", .null⟩
    else
      match upstream with
      | .failure st body => ⟨st, "Upstream CoinGecko error", .upstreamError body⟩
      | .success body => ⟨200, "Markets fetched successfully", .markets body⟩
      | .thrown => ⟨500, "Failed to fetch data", .null⟩

/-- Handler `getFavorites` (index.ts lines 79-133). `queryFails` is the
oracle for the store read throwing; the second component reports whether the
store was reached. -/
def getFavorites (req : FavListReq) (s : Store) (queryFails : Bool) :
    Resp × Bool :=
  if req.method == "OPTIONS" then (⟨204, "", .null⟩, false)
  else if !(req.method == "GET" || req.method == "POST") then
    (⟨405, "Method Not Allowed", .null⟩, false)
  else
    let userIdRaw := if req.method == "GET" then req.queryUserId.getD ""
      else req.bodyUserId.getD ""
    let userId := jsTrim userIdRaw
    if userId == "" || !(validUserId userId) then
      (⟨400, "Invalid or missing userId", .null⟩, false)
    else if queryFails then (⟨500, "Failed to fetch favorites", .null⟩, true)
    else
      (⟨200, "Favorites fetched successfully",
        .favorites (listFavorites s userId)⟩, true)

/-- Handler `toggleFavorite` (index.ts lines 135-208). `txFails` is the
oracle for `db.runTransaction` throwing (store unreachable or retry budget
exhausted); a failed transaction commits nothing, so the state is returned
unchanged in that case. -/
def toggleFavorite (req : ToggleReq) (st : DbState) (txFails : Bool) :
    ToggleOut :=
  if req.method == "OPTIONS" then ⟨⟨204, "", .null⟩, st, false⟩
  else if !(req.method == "POST") then
    ⟨⟨405, "Method Not Allowed", .null⟩, st, false⟩
  else
    let userId := jsTrim (req.userId.getD "")
    let coinId := jsToLower (jsTrim (req.coinId.getD ""))
    if userId == "" || !(validUserId userId) then
      ⟨⟨400, "Invalid or missing userId", .null⟩, st, false⟩
    else if coinId == "" || !(validCoinId coinId) then
      ⟨⟨400, "Invalid or missing coinId", .null⟩, st, false⟩
    else if txFails then ⟨⟨500, "Failed to toggle favorite", .null⟩, st, true⟩
    else
      let r := toggleTransaction userId coinId st
      ⟨⟨200, if r.1 then "Added to favorites" else "Removed from favorites",
        .favorited r.1⟩, r.2, true⟩

/-- Handler `getCoin` (index.ts lines 210-272). `upstream` is the outcome of
the single `fetch` to the CoinGecko coin-detail endpoint. -/
def getCoin (req : CoinReq) (upstream : FetchResult) : Resp :=
  if req.method == "OPTIONS" then ⟨204, "", .null⟩
  else if !(req.method == "POST") then ⟨405, "Method Not Allowed", .null⟩
  else
    let id := jsToLower (jsTrim (req.id.getD ""))
    if id == "" || !(validCoinId id) then
      ⟨400, "Invalid or missing id in request body", .null⟩
    else
      match upstream with
      | .failure st body => ⟨st, "Upstream CoinGecko error", .upstreamError body⟩
      | .success body => ⟨200, "Coin fetched successfully", .coin body⟩
      | .thrown => ⟨500, "Failed to fetch data", .null⟩

/-- Two documents share a storage key when they have the same owner and the
same coin id (they live at the same document path). -/
def sameKey (a b : FavDoc) : Prop :=
  a.userId = b.userId ∧ a.coinId = b.coinId

/-- The set invariant: no two documents of the store share a key. -/
def keysNodup (s : Store) : Prop :=
  s.Pairwise (fun a b => ¬ sameKey a b)

/-- Operations a client can issue against the favorites store. -/
inductive Op where
  | toggle (u c : String)
  | list (u : String)
deriving Repr, DecidableEq

/-- Effect of one operation on the database (listing reads, toggling runs
the transaction). -/
def applyOp (st : DbState) : Op → DbState
  | .toggle u c => (toggleTransaction u c st).2
  | .list _ => st

/-- Effect of a sequence of operations, first to last. -/
def runOps (st : DbState) (ops : List Op) : DbState :=
  ops.foldl applyOp st

/-- Serialization of `n` toggle transactions on the same key: the store's
transactional isolation makes each call one atomic step, so any concurrent
schedule of identical calls executes as this sequential iteration. -/
def toggleIter (u c : String) (st : DbState) : Nat → DbState
  | 0 => st
  | n + 1 => (toggleTransaction u c (toggleIter u c st n)).2

/-- A document at the path it was built for matches its own key. -/
theorem docKeyMatches_self (u c : String) (t : Nat) :
    docKeyMatches u c ⟨u, c, t⟩ = true := by
  simp [docKeyMatches]

/-- A document cannot live at two distinct paths. -/
theorem docKeyMatches_unique {u c u' c' : String} {d : FavDoc}
    (h1 : docKeyMatches u c d = true) (h2 : docKeyMatches u' c' d = true) :
    u' = u ∧ c' = c := by
  simp only [docKeyMatches, Bool.and_eq_true, beq_iff_eq] at h1 h2
  exact ⟨h2.1 ▸ h1.1, h2.2 ▸ h1.2⟩

/-- Existence in a store with one more document at its head. -/
theorem storeGetExists_cons (d : FavDoc) (s : Store) (u c : String) :
    storeGetExists (d :: s) u c = (docKeyMatches u c d || storeGetExists s u c) := by
  simp [storeGetExists]

/-- Deleting a path that holds no document leaves the store untouched. -/
theorem storeDelete_of_not_exists {s : Store} {u c : String}
    (h : storeGetExists s u c = false) : storeDelete s u c = s := by
  rw [storeGetExists, List.any_eq_false] at h
  rw [storeDelete, List.filter_eq_self]
  intro d hd
  simp [h d hd]

/-- After `tx.delete`, the document at the deleted path is gone. -/
theorem storeGetExists_delete_self (s : Store) (u c : String) :
    storeGetExists (storeDelete s u c) u c = false := by
  rw [storeGetExists, storeDelete, List.any_filter, List.any_eq_false]
  intro d _
  cases h : docKeyMatches u c d <;> simp [h]

/-- Deleting one path does not disturb documents at any other path. -/
theorem storeGetExists_delete_other {u c u' c' : String}
    (hne : ¬(u' = u ∧ c' = c)) (s : Store) :
    storeGetExists (storeDelete s u c) u' c' = storeGetExists s u' c' := by
  rw [storeGetExists, storeDelete, List.any_filter, storeGetExists]
  have hpt : ∀ d : FavDoc,
      ((fun d => !docKeyMatches u c d) d && docKeyMatches u' c' d) =
        docKeyMatches u' c' d := by
    intro d
    cases h' : docKeyMatches u' c' d
    · simp
    · cases h : docKeyMatches u c d
      · simp [h]
      · exact absurd (docKeyMatches_unique h h') hne
  induction s with
  | nil => rfl
  | cons d t ih => rw [List.any_cons, List.any_cons, hpt d, ih]

/-- Deleting a path twice is the same as deleting it once. -/
theorem storeDelete_idem (s : Store) (u c : String) :
    storeDelete (storeDelete s u c) u c = storeDelete s u c :=
  storeDelete_of_not_exists (storeGetExists_delete_self s u c)

/-- Deleting a path whose document sits at the head of the store removes
exactly that head. -/
theorem storeDelete_cons_self (u c : String) (t : Nat) (s : Store) :
    storeDelete (FavDoc.mk u c t :: s) u c = storeDelete s u c := by
  rw [storeDelete, List.filter_cons]
  simp [docKeyMatches_self, storeDelete]

/-- The set invariant survives a delete. -/
theorem keysNodup_delete {s : Store} (h : keysNodup s) (u c : String) :
    keysNodup (storeDelete s u c) :=
  h.sublist (List.filter_sublist s)

/-- The set invariant survives an upsert. -/
theorem keysNodup_set {s : Store} (h : keysNodup s) (u c : String) (t : Nat) :
    keysNodup (storeSet s u c t) := by
  rw [storeSet, keysNodup, List.pairwise_cons]
  refine ⟨?_, keysNodup_delete h u c⟩
  intro d hd hkey
  rw [storeDelete, List.mem_filter] at hd
  apply absurd hd.2
  simp only [Bool.not_eq_true', Bool.not_eq_false]
  rw [docKeyMatches]
  obtain ⟨h1, h2⟩ := hkey
  simp [h1.symm, h2.symm]

/-- The toggle transaction preserves the set invariant. -/
theorem toggleTransaction_preserves_nodup {st : DbState} (u c : String)
    (h : keysNodup st.store) : keysNodup ((toggleTransaction u c st).2).store := by
  rw [toggleTransaction]
  by_cases he : storeGetExists st.store u c = true
  · simp only [he, if_true]
    exact keysNodup_delete h u c
  · simp only [he, if_false]
    exact keysNodup_set h u c st.clock

/-- Structure eta for strings. -/
theorem string_mk_data (s : String) : String.mk s.data = s := rfl

/-- Coin-id characters are not whitespace. -/
theorem isCoinChar_not_ws {c : Char} (h : isCoinChar c = true) :
    isJsWhitespace c = false := by
  rw [isCoinChar] at h
  rw [isJsWhitespace]
  simp only [Bool.or_eq_true, Bool.and_eq_true, decide_eq_true_eq,
    beq_iff_eq] at h
  simp only [Bool.or_eq_false_iff, beq_eq_false_iff_ne, ne_eq]
  omega

/-- User-id characters are not whitespace. -/
theorem isUserChar_not_ws {c : Char} (h : isUserChar c = true) :
    isJsWhitespace c = false := by
  rw [isUserChar] at h
  rw [isJsWhitespace]
  simp only [Bool.or_eq_true, Bool.and_eq_true, decide_eq_true_eq,
    beq_iff_eq] at h
  simp only [Bool.or_eq_false_iff, beq_eq_false_iff_ne, ne_eq]
  omega

/-- Coin-id characters are untouched by ASCII lowercasing. -/
theorem isCoinChar_lower_fix {c : Char} (h : isCoinChar c = true) :
    lowerChar c = c := by
  rw [isCoinChar] at h
  simp only [Bool.or_eq_true, Bool.and_eq_true, decide_eq_true_eq,
    beq_iff_eq] at h
  rw [lowerChar]
  split
  · next hcond =>
    simp only [Bool.and_eq_true, decide_eq_true_eq] at hcond
    omega
  · rfl

/-- Dropping a prefix by a predicate that holds nowhere drops nothing. -/
theorem dropWhile_of_all_not {p : Char → Bool} {l : List Char}
    (h : ∀ c ∈ l, p c = false) : l.dropWhile p = l := by
  cases l with
  | nil => rfl
  | cons a t =>
    rw [List.dropWhile_cons, h a (List.mem_cons_self a t)]
    simp

/-- Mapping a function that fixes every element is the identity. -/
theorem map_of_all_fix {f : Char → Char} {l : List Char}
    (h : ∀ c ∈ l, f c = c) : l.map f = l := by
  induction l with
  | nil => rfl
  | cons a t ih =>
    rw [List.map_cons, h a (List.mem_cons_self a t),
      ih (fun c hc => h c (List.mem_cons_of_mem a hc))]

/-- Trimming a string with no whitespace characters is the identity. -/
theorem jsTrim_fix {s : String} (h : ∀ c ∈ s.data, isJsWhitespace c = false) :
    jsTrim s = s := by
  rw [jsTrim, dropWhile_of_all_not h,
    dropWhile_of_all_not (fun c hc => h c (List.mem_reverse.1 hc)),
    List.reverse_reverse, string_mk_data]

/-- Lowercasing a string whose characters are already fixed points is the
identity. -/
theorem jsToLower_fix {s : String} (h : ∀ c ∈ s.data, lowerChar c = c) :
    jsToLower s = s := by
  rw [jsToLower, map_of_all_fix h, string_mk_data]

/-- A string that passes the coin-id test is unchanged by the handler's
trim-then-lowercase normalization. -/
theorem validCoinId_norm_fix {t : String} (h : validCoinId t = true) :
    jsToLower (jsTrim t) = t := by
  rw [validCoinId] at h
  simp only [Bool.and_eq_true, decide_eq_true_eq, List.all_eq_true] at h
  have hall := h.2
  rw [jsTrim_fix (fun c hc => isCoinChar_not_ws (hall c hc))]
  exact jsToLower_fix (fun c hc => isCoinChar_lower_fix (hall c hc))

/-- A string that passes the user-id test is unchanged by trimming. -/
theorem validUserId_trim_fix {t : String} (h : validUserId t = true) :
    jsTrim t = t := by
  rw [validUserId] at h
  simp only [Bool.and_eq_true, decide_eq_true_eq, List.all_eq_true] at h
  exact jsTrim_fix (fun c hc => isUserChar_not_ws (h.2 c hc))

/-- A valid user id is not the empty string. -/
theorem validUserId_ne_empty {u : String} (h : validUserId u = true) :
    (u == "") = false := by
  rw [beq_eq_false_iff_ne]
  intro heq
  rw [heq] at h
  exact absurd h (by decide)

/-- A valid coin id is not the empty string. -/
theorem validCoinId_ne_empty {c : String} (h : validCoinId c = true) :
    (c == "") = false := by
  rw [beq_eq_false_iff_ne]
  intro heq
  rw [heq] at h
  exact absurd h (by decide)

/-- C1: for every userId and coinId, the toggle transaction answers `true`
exactly when no favorite document for the pair existed before the call, in
which case it creates one stamped with the server clock; it answers `false`
exactly when a document existed, in which case it deletes it. -/
theorem toggle_creates_or_deletes (u c : String) (st : DbState) :
    ((toggleTransaction u c st).1 = true ↔ storeGetExists st.store u c = false) ∧
    (storeGetExists st.store u c = false →
      (toggleTransaction u c st).2.store = FavDoc.mk u c st.clock :: st.store ∧
      (toggleTransaction u c st).2.clock = st.clock + 1) ∧
    (storeGetExists st.store u c = true →
      (toggleTransaction u c st).1 = false ∧
      (toggleTransaction u c st).2.store = storeDelete st.store u c ∧
      storeGetExists (toggleTransaction u c st).2.store u c = false) := by
  by_cases h : storeGetExists st.store u c = true
  · rw [toggleTransaction, if_pos h]
    exact ⟨by simp [h], fun habs => absurd h (by simp [habs]),
      fun _ => ⟨rfl, rfl, storeGetExists_delete_self st.store u c⟩⟩
  · have h' : storeGetExists st.store u c = false := by
      cases hx : storeGetExists st.store u c
      · rfl
      · exact absurd hx h
    rw [toggleTransaction, if_neg h]
    refine ⟨by simp [h'], fun _ => ⟨?_, rfl⟩, fun habs => absurd habs h⟩
    show storeSet st.store u c st.clock = _
    rw [storeSet, storeDelete_of_not_exists h']

/-- Witness for C1 at a concrete fresh pair. -/
theorem toggle_creates_or_deletes_witness :
    (toggleTransaction "user1" "btc" ⟨[], 0⟩).1 = true ∧
    (toggleTransaction "user1" "btc" ⟨[], 0⟩).2.store = [⟨"user1", "btc", 0⟩] := by
  have h := toggle_creates_or_deletes "user1" "btc" ⟨[], 0⟩
  exact ⟨h.1.mpr (by decide), (h.2.1 (by decide)).1⟩

/-- C2: with the transaction as one atomic step (the store's isolation
guarantee), any schedule of `N` toggle calls on a fresh pair runs as the
serial iteration `toggleIter`; the entry exists afterwards exactly when `N`
is odd, the set invariant is preserved (no duplicate entries), and documents
at every other path are untouched (no lost updates). -/
theorem toggle_concurrent_parity (u c : String) (st : DbState) (N : Nat)
    (hfresh : storeGetExists st.store u c = false) :
    (storeGetExists (toggleIter u c st N).store u c = decide (N % 2 = 1)) ∧
    (keysNodup st.store → keysNodup (toggleIter u c st N).store) ∧
    (storeDelete (toggleIter u c st N).store u c = storeDelete st.store u c) := by
  induction N with
  | zero =>
    refine ⟨?_, fun h => h, rfl⟩
    simpa using hfresh
  | succ n ih =>
    obtain ⟨ihp, ihnd, ihdel⟩ := ih
    have hstep : toggleIter u c st (n + 1) =
        (toggleTransaction u c (toggleIter u c st n)).2 := rfl
    rcases Nat.mod_two_eq_zero_or_one n with hpar | hpar
    · have habs : storeGetExists (toggleIter u c st n).store u c = false := by
        rw [ihp, hpar]
        rfl
      have hsucc : (n + 1) % 2 = 1 := by omega
      have htx : (toggleTransaction u c (toggleIter u c st n)).2 =
          ⟨storeSet (toggleIter u c st n).store u c (toggleIter u c st n).clock,
            (toggleIter u c st n).clock + 1⟩ := by
        rw [toggleTransaction, if_neg (by simp [habs])]
      refine ⟨?_, ?_, ?_⟩
      · rw [hstep, htx, hsucc]
        show storeGetExists (storeSet _ u c _) u c = true
        rw [storeSet, storeGetExists_cons, docKeyMatches_self]
        rfl
      · intro hnd
        rw [hstep]
        exact toggleTransaction_preserves_nodup u c (ihnd hnd)
      · rw [hstep, htx]
        show storeDelete (storeSet _ u c _) u c = _
        rw [storeSet, storeDelete_cons_self, storeDelete_idem, ihdel]
    · have hpres : storeGetExists (toggleIter u c st n).store u c = true := by
        rw [ihp, hpar]
        rfl
      have hsucc : (n + 1) % 2 = 0 := by omega
      have htx : (toggleTransaction u c (toggleIter u c st n)).2 =
          ⟨storeDelete (toggleIter u c st n).store u c,
            (toggleIter u c st n).clock⟩ := by
        rw [toggleTransaction, if_pos hpres]
      refine ⟨?_, ?_, ?_⟩
      · rw [hstep, htx, hsucc]
        show storeGetExists (storeDelete _ u c) u c = decide (0 = 1)
        rw [storeGetExists_delete_self]
        rfl
      · intro hnd
        rw [hstep]
        exact toggleTransaction_preserves_nodup u c (ihnd hnd)
      · rw [hstep, htx]
        show storeDelete (storeDelete _ u c) u c = _
        rw [storeDelete_idem, ihdel]

/-- Witness for C2: four serialized toggles on a fresh pair leave the entry
absent, keep the invariant, and leave the rest of the store untouched. -/
theorem toggle_concurrent_parity_witness :
    storeGetExists (toggleIter "user1" "btc" ⟨[], 0⟩ 4).store "user1" "btc" =
      decide (4 % 2 = 1) ∧
    keysNodup (toggleIter "user1" "btc" ⟨[], 0⟩ 4).store := by
  have h := toggle_concurrent_parity "user1" "btc" ⟨[], 0⟩ 4 (by decide)
  exact ⟨h.1, h.2.1 List.Pairwise.nil⟩

/-- Counterexample to C3 as stated: toggling an already-favorited coin off
and on again recreates its document with a fresh server timestamp, so the
Favorite Set is not exactly as it was — the recency order observable through
the listing changes (here from `[bb, aa]` to `[aa, bb]`). -/
theorem toggle_twice_counterexample :
    (listFavorites
        ((toggleTransaction "usera" "aa"
          ((toggleTransaction "usera" "aa"
            ⟨[⟨"usera", "bb", 1⟩, ⟨"usera", "aa", 0⟩], 2⟩).2)).2).store "usera" ==
      listFavorites [⟨"usera", "bb", 1⟩, ⟨"usera", "aa", 0⟩] "usera") = false := by
  decide

/-- C3 amended: two sequential toggles with identical arguments return
`true` then `false` (or `false` then `true`, by the starting state) and
restore the membership of every user's Favorite Set; when the pair was
initially absent the store is restored exactly, while an initially present
entry is recreated with a fresh server-assigned timestamp. -/
theorem toggle_twice_inverse (u c : String) (st : DbState) :
    ((toggleTransaction u c st).1 = !(storeGetExists st.store u c)) ∧
    ((toggleTransaction u c ((toggleTransaction u c st).2)).1 =
      !((toggleTransaction u c st).1)) ∧
    (∀ u' c', storeGetExists
        ((toggleTransaction u c ((toggleTransaction u c st).2)).2).store u' c' =
      storeGetExists st.store u' c') ∧
    (storeGetExists st.store u c = false →
      ((toggleTransaction u c ((toggleTransaction u c st).2)).2).store = st.store) := by
  by_cases h : storeGetExists st.store u c = true
  · have hr1 : toggleTransaction u c st =
        (false, ⟨storeDelete st.store u c, st.clock⟩) := by
      rw [toggleTransaction, if_pos h]
    have habs : storeGetExists (storeDelete st.store u c) u c = false :=
      storeGetExists_delete_self st.store u c
    have hr2 : toggleTransaction u c ⟨storeDelete st.store u c, st.clock⟩ =
        (true, ⟨FavDoc.mk u c st.clock :: storeDelete st.store u c,
          st.clock + 1⟩) := by
      rw [toggleTransaction, if_neg (by simp [habs])]
      show (true, DbState.mk (storeSet _ u c _) _) = _
      rw [storeSet, storeDelete_idem]
    simp only [hr1, hr2, h]
    refine ⟨rfl, rfl, ?_, fun habs2 => Bool.noConfusion habs2⟩
    intro u' c'
    rw [storeGetExists_cons]
    by_cases hk : u' = u ∧ c' = c
    · obtain ⟨hu, hc⟩ := hk
      subst hu; subst hc
      rw [docKeyMatches_self, h]
      rfl
    · have hhead : docKeyMatches u' c' (FavDoc.mk u c st.clock) = false := by
        cases hm : docKeyMatches u' c' ⟨u, c, st.clock⟩
        · rfl
        · exact absurd (docKeyMatches_unique (docKeyMatches_self u c st.clock) hm) hk
      rw [hhead, Bool.false_or, storeGetExists_delete_other hk]
  · have h' : storeGetExists st.store u c = false := by
      cases hx : storeGetExists st.store u c
      · rfl
      · exact absurd hx h
    have hr1 : toggleTransaction u c st =
        (true, ⟨FavDoc.mk u c st.clock :: st.store, st.clock + 1⟩) := by
      rw [toggleTransaction, if_neg h]
      show (true, DbState.mk (storeSet _ u c _) _) = _
      rw [storeSet, storeDelete_of_not_exists h']
    have hpres : storeGetExists (FavDoc.mk u c st.clock :: st.store) u c = true := by
      rw [storeGetExists_cons, docKeyMatches_self]
      rfl
    have hr2 : toggleTransaction u c ⟨FavDoc.mk u c st.clock :: st.store,
        st.clock + 1⟩ =
        (false, ⟨st.store, st.clock + 1⟩) := by
      rw [toggleTransaction, if_pos hpres]
      show (false, DbState.mk (storeDelete (_ :: st.store) u c) _) = _
      rw [storeDelete_cons_self, storeDelete_of_not_exists h']
    simp [hr1, hr2, h']

/-- Witness for the amended C3 at a concrete state: a fresh pair toggled
twice answers `true` then `false` and restores the store exactly. -/
theorem toggle_twice_inverse_witness :
    (toggleTransaction "user1" "btc" ⟨[], 0⟩).1 = true ∧
    (toggleTransaction "user1" "btc"
      ((toggleTransaction "user1" "btc" ⟨[], 0⟩).2)).1 = false ∧
    ((toggleTransaction "user1" "btc"
      ((toggleTransaction "user1" "btc" ⟨[], 0⟩).2)).2).store = [] := by
  have h := toggle_twice_inverse "user1" "btc" ⟨[], 0⟩
  have hfresh : storeGetExists (DbState.mk [] 0).store "user1" "btc" = false := by
    decide
  refine ⟨?_, ?_, h.2.2.2 hfresh⟩
  · rw [h.1, hfresh]
    decide
  · rw [h.2.1, h.1, hfresh]
    decide

/-- C4: every operation preserves the at-most-one-entry-per-(userId, coinId)
invariant, so in every state reachable by any sequence of toggle and list
operations — in particular from the empty store — membership is a set,
never a multiset. -/
theorem favorites_set_invariant :
    (∀ (ops : List Op) (st : DbState), keysNodup st.store →
      keysNodup (runOps st ops).store) ∧
    (∀ ops : List Op, keysNodup (runOps ⟨[], 0⟩ ops).store) := by
  have main : ∀ (ops : List Op) (st : DbState), keysNodup st.store →
      keysNodup (runOps st ops).store := by
    intro ops
    induction ops with
    | nil => exact fun st h => h
    | cons op rest ih =>
      intro st h
      show keysNodup (runOps (applyOp st op) rest).store
      cases op with
      | toggle u c => exact ih _ (toggleTransaction_preserves_nodup u c h)
      | list u => exact ih _ h
  exact ⟨main, fun ops => main ops ⟨[], 0⟩ List.Pairwise.nil⟩

/-- Witness for C4 on a concrete nonempty starting store and operation
sequence. -/
theorem favorites_set_invariant_witness :
    keysNodup (runOps ⟨[⟨"user1", "btc", 0⟩], 1⟩
      [Op.toggle "user1" "eth", Op.list "user1", Op.toggle "user1" "btc"]).store := by
  refine favorites_set_invariant.1 _ _ ?_
  simp [keysNodup]

/-- C5: the favorites query is ordered by descending creation time; adding
three distinct coins in order c1, c2, c3 and then listing yields
[c3, c2, c1]; and an empty Favorite Set yields a 200 success with an empty
sequence. -/
theorem getFavorites_listing (s : Store) (u c1 c2 c3 : String) :
    List.Sorted favLater (favoritesQuery s u) ∧
    (c1 ≠ c2 → c1 ≠ c3 → c2 ≠ c3 →
      listFavorites
        ((toggleTransaction u c3
          ((toggleTransaction u c2
            ((toggleTransaction u c1 ⟨[], 0⟩).2)).2)).2).store u = [c3, c2, c1]) ∧
    (validUserId u = true →
      getFavorites ⟨"GET", some u, none⟩ [] false =
        (⟨200, "Favorites fetched successfully", .favorites []⟩, true)) := by
  refine ⟨?_, ?_, ?_⟩
  · rw [favoritesQuery]
    exact List.sorted_insertionSort favLater _
  · intro h12 h13 h23
    have e12 : (c1 == c2) = false := beq_eq_false_iff_ne.mpr h12
    have e13 : (c1 == c3) = false := beq_eq_false_iff_ne.mpr h13
    have e23 : (c2 == c3) = false := beq_eq_false_iff_ne.mpr h23
    have h1 : (toggleTransaction u c1 (⟨[], 0⟩ : DbState)).2 =
        ⟨[⟨u, c1, 0⟩], 1⟩ := rfl
    have hne2 : storeGetExists [FavDoc.mk u c1 0] u c2 = false := by
      simp [storeGetExists, docKeyMatches, e12]
    have h2 : (toggleTransaction u c2 (⟨[⟨u, c1, 0⟩], 1⟩ : DbState)).2 =
        ⟨[⟨u, c2, 1⟩, ⟨u, c1, 0⟩], 2⟩ := by
      rw [toggleTransaction, if_neg (by simp [hne2])]
      show DbState.mk (storeSet _ u c2 _) _ = _
      rw [storeSet, storeDelete_of_not_exists hne2]
    have hne3 : storeGetExists [FavDoc.mk u c2 1, FavDoc.mk u c1 0] u c3 = false := by
      simp [storeGetExists, docKeyMatches, e13, e23]
    have h3 : (toggleTransaction u c3 (⟨[⟨u, c2, 1⟩, ⟨u, c1, 0⟩], 2⟩ : DbState)).2 =
        ⟨[⟨u, c3, 2⟩, ⟨u, c2, 1⟩, ⟨u, c1, 0⟩], 3⟩ := by
      rw [toggleTransaction, if_neg (by simp [hne3])]
      show DbState.mk (storeSet _ u c3 _) _ = _
      rw [storeSet, storeDelete_of_not_exists hne3]
    rw [h1, h2, h3]
    simp [listFavorites, favoritesQuery, List.insertionSort, List.orderedInsert,
      favLater]
  · intro hvu
    have htrim : jsTrim u = u := validUserId_trim_fix hvu
    have hne : (u == "") = false := validUserId_ne_empty hvu
    simp [getFavorites, htrim, hne, hvu, listFavorites, favoritesQuery]

/-- Witness for C5 at concrete coins: three adds list most-recent-first and
the empty set lists as a 200 success. -/
theorem getFavorites_listing_witness :
    List.Sorted favLater (favoritesQuery [⟨"user1", "btc", 0⟩] "user1") ∧
    listFavorites
      ((toggleTransaction "user1" "ccc"
        ((toggleTransaction "user1" "bbb"
          ((toggleTransaction "user1" "aaa" ⟨[], 0⟩).2)).2)).2).store "user1" =
      ["ccc", "bbb", "aaa"] ∧
    getFavorites ⟨"GET", some "user1", none⟩ [] false =
      (⟨200, "Favorites fetched successfully", .favorites []⟩, true) := by
  have h := getFavorites_listing [⟨"user1", "btc", 0⟩] "user1" "aaa" "bbb" "ccc"
  exact ⟨h.1, h.2.1 (by decide) (by decide) (by decide), h.2.2 (by decide)⟩

/-- C6: a request whose (normalized) userId fails the 3-128 charset test, or
whose (trimmed, lowercased) coinId fails the 2-100 lowercase charset test,
is answered with status 400 and the store is never reached: no transaction
starts, the state is unchanged, and the accessed flag stays false — for the
toggle handler and for the listing handler alike. -/
theorem validation_fail_fast :
    (∀ (req : ToggleReq) (st : DbState) (f : Bool), req.method = "POST" →
      validUserId (jsTrim (req.userId.getD "")) = false →
      toggleFavorite req st f =
        ⟨⟨400, "Invalid or missing userId", .null⟩, st, false⟩) ∧
    (∀ (req : ToggleReq) (st : DbState) (f : Bool), req.method = "POST" →
      validUserId (jsTrim (req.userId.getD "")) = true →
      validCoinId (jsToLower (jsTrim (req.coinId.getD ""))) = false →
      toggleFavorite req st f =
        ⟨⟨400, "Invalid or missing coinId", .null⟩, st, false⟩) ∧
    (∀ (req : FavListReq) (s : Store) (f : Bool),
      (req.method = "GET" ∨ req.method = "POST") →
      validUserId (jsTrim (if req.method = "GET" then req.queryUserId.getD ""
        else req.bodyUserId.getD "")) = false →
      getFavorites req s f = (⟨400, "Invalid or missing userId", .null⟩, false)) := by
  refine ⟨?_, ?_, ?_⟩
  · intro req st f hm hu
    obtain ⟨m, uo, co⟩ := req
    simp only at hm
    subst hm
    simp [toggleFavorite, hu]
  · intro req st f hm hu hc
    obtain ⟨m, uo, co⟩ := req
    simp only at hm
    subst hm
    simp [toggleFavorite, hu, validUserId_ne_empty hu, hc]
  · intro req s f hm hu
    obtain ⟨m, quo, buo⟩ := req
    rcases hm with hm | hm <;> simp only at hm <;> subst hm
    · rw [if_pos rfl] at hu
      simp [getFavorites, hu]
    · rw [if_neg (by decide : ¬("POST" = "GET"))] at hu
      simp [getFavorites, hu]

/-- Witness for C6: userId `""` and coinId `"AB!"` are both rejected with a
400 before any store access, as is a listing request with empty userId. -/
theorem validation_fail_fast_witness :
    toggleFavorite ⟨"POST", some "", some "bitcoin"⟩ ⟨[], 0⟩ false =
      ⟨⟨400, "Invalid or missing userId", .null⟩, ⟨[], 0⟩, false⟩ ∧
    toggleFavorite ⟨"POST", some "user1", some "AB!"⟩ ⟨[], 0⟩ false =
      ⟨⟨400, "Invalid or missing coinId", .null⟩, ⟨[], 0⟩, false⟩ ∧
    getFavorites ⟨"GET", some "", none⟩ [] false =
      (⟨400, "Invalid or missing userId", .null⟩, false) := by
  refine ⟨validation_fail_fast.1 _ _ _ rfl (by decide),
    validation_fail_fast.2.1 _ _ _ rfl (by decide) (by decide),
    validation_fail_fast.2.2 _ _ _ (Or.inl rfl) (by decide)⟩

/-- C7: when the store is unavailable or the toggle transaction exhausts its
retries (`txFails`), the handler answers the uniform 500 envelope and the
database state is exactly what it was before the call — the failed
transaction commits nothing. -/
theorem toggle_store_failure_atomic (req : ToggleReq) (st : DbState)
    (hm : req.method = "POST")
    (hu : validUserId (jsTrim (req.userId.getD "")) = true)
    (hc : validCoinId (jsToLower (jsTrim (req.coinId.getD ""))) = true) :
    toggleFavorite req st true =
      ⟨⟨500, "Failed to toggle favorite", .null⟩, st, true⟩ := by
  obtain ⟨m, uo, co⟩ := req
  simp only at hm hu hc
  subst hm
  simp [toggleFavorite, hu, hc, validUserId_ne_empty hu, validCoinId_ne_empty hc]

/-- Witness for C7 at a concrete valid request and nonempty store. -/
theorem toggle_store_failure_atomic_witness :
    toggleFavorite ⟨"POST", some "user1", some "btc"⟩ ⟨[⟨"user1", "eth", 0⟩], 1⟩
      true =
      ⟨⟨500, "Failed to toggle favorite", .null⟩, ⟨[⟨"user1", "eth", 0⟩], 1⟩,
        true⟩ :=
  toggle_store_failure_atomic ⟨"POST", some "user1", some "btc"⟩
    ⟨[⟨"user1", "eth", 0⟩], 1⟩ rfl (by decide) (by decide)

/-- C8: when the upstream API answers a non-success HTTP status, both proxy
handlers reply with that same status and embed the upstream body untranslated
in the envelope's `data.error` field. -/
theorem upstream_passthrough :
    (∀ (cur : Option String) (status : Nat) (body : String),
      validCurrency (jsToLower (match cur with
        | none => "usd"
        | some s => if s = "" then "usd" else s)) = true →
      getMarkets ⟨"GET", cur⟩ (.failure status body) =
        ⟨status, "Upstream CoinGecko error", .upstreamError body⟩) ∧
    (∀ (cid : String) (status : Nat) (body : String),
      validCoinId (jsToLower (jsTrim cid)) = true →
      getCoin ⟨"POST", some cid⟩ (.failure status body) =
        ⟨status, "Upstream CoinGecko error", .upstreamError body⟩) := by
  constructor
  · intro cur status body hcur
    simp [getMarkets, hcur]
  · intro cid status body hcid
    simp [getCoin, hcid, validCoinId_ne_empty hcid]

/-- Witness for C8: a simulated upstream 404 with body
`\x7b"error":"not found"\x7d` on coin-detail fetch (and on the market list)
is passed through with status 404 and the body embedded. -/
theorem upstream_passthrough_witness :
    getCoin ⟨"POST", some "bitcoin"⟩
        (.failure 404 "\x7b\"error\":\"not found\"\x7d") =
      ⟨404, "Upstream CoinGecko error",
        .upstreamError "\x7b\"error\":\"not found\"\x7d"⟩ ∧
    getMarkets ⟨"GET", none⟩ (.failure 404 "\x7b\"error\":\"not found\"\x7d") =
      ⟨404, "Upstream CoinGecko error",
        .upstreamError "\x7b\"error\":\"not found\"\x7d"⟩ :=
  ⟨upstream_passthrough.2 "bitcoin" 404 _ (by decide),
    upstream_passthrough.1 none 404 _ (by decide)⟩

/-- C9: the toggle and coin-detail handlers trim and lowercase the coin
identifier before validating it, so any input whose trimmed lowercase form
is a valid coin id behaves exactly like that normalized form — mixed-case
input such as "Bitcoin" toggles the same favorite entry as "bitcoin". -/
theorem coinId_normalization (m : String) (uo : Option String) (s : String)
    (st : DbState) (f : Bool) (fr : FetchResult)
    (h : validCoinId (jsToLower (jsTrim s)) = true) :
    toggleFavorite ⟨m, uo, some s⟩ st f =
      toggleFavorite ⟨m, uo, some (jsToLower (jsTrim s))⟩ st f ∧
    getCoin ⟨m, some s⟩ fr = getCoin ⟨m, some (jsToLower (jsTrim s))⟩ fr := by
  have key : jsToLower (jsTrim (jsToLower (jsTrim s))) = jsToLower (jsTrim s) :=
    validCoinId_norm_fix h
  constructor
  · simp only [toggleFavorite, Option.getD_some, key]
  · simp only [getCoin, Option.getD_some, key]

/-- Witness for C9: "Bitcoin" is accepted and behaves exactly as "bitcoin"
in both handlers. -/
theorem coinId_normalization_witness :
    toggleFavorite ⟨"POST", some "user1", some "Bitcoin"⟩ ⟨[], 0⟩ false =
      toggleFavorite ⟨"POST", some "user1",
        some (jsToLower (jsTrim "Bitcoin"))⟩ ⟨[], 0⟩ false ∧
    getCoin ⟨"POST", some "Bitcoin"⟩ (.success "ok") =
      getCoin ⟨"POST", some (jsToLower (jsTrim "Bitcoin"))⟩ (.success "ok") :=
  coinId_normalization "POST" (some "user1") "Bitcoin" ⟨[], 0⟩ false
    (.success "ok") (by decide)

/-- C10: a GET market-list request with the currency parameter absent or
empty is not rejected but behaves exactly as currency "usd"; a supplied
value is lowercased before validation, and the request is answered with the
invalid-currency 400 exactly when the lowercased value fails the 2-10
lowercase-letter test. -/
theorem currency_defaulting (fr : FetchResult) (v : String) (hv : ¬ v = "") :
    getMarkets ⟨"GET", none⟩ fr = getMarkets ⟨"GET", some "usd"⟩ fr ∧
    getMarkets ⟨"GET", some ""⟩ fr = getMarkets ⟨"GET", some "usd"⟩ fr ∧
    (getMarkets ⟨"GET", some v⟩ fr =
        ⟨400, "Invalid currency parameter", .null⟩ ↔
      validCurrency (jsToLower v) = false) := by
  refine ⟨rfl, rfl, ?_⟩
  have hbeq : (v == "") = false := beq_eq_false_iff_ne.mpr hv
  by_cases hvc : validCurrency (jsToLower v) = true
  · simp only [getMarkets, hbeq]
    constructor
    · intro habs
      cases fr <;> simp [hvc] at habs
    · intro habs
      rw [hvc] at habs
      exact absurd habs (by decide)
  · have hvc' : validCurrency (jsToLower v) = false := by
      cases hx : validCurrency (jsToLower v)
      · rfl
      · exact absurd hx hvc
    simp [getMarkets, hbeq, hvc']

/-- Witness for C10: absent currency proxies like "usd", and "EUR" is
lowercased and accepted rather than rejected. -/
theorem currency_defaulting_witness :
    getMarkets ⟨"GET", none⟩ (.success "m") =
      getMarkets ⟨"GET", some "usd"⟩ (.success "m") ∧
    (getMarkets ⟨"GET", some "EUR"⟩ (.success "m") =
        ⟨400, "Invalid currency parameter", .null⟩ ↔
      validCurrency (jsToLower "EUR") = false) := by
  have h := currency_defaulting (.success "m") "EUR" (by decide)
  exact ⟨h.1, h.2.2⟩
